import Mathlib

/-!
Shallow embedding of the CodingAssistant voice pipeline.

Source files embedded here:
- `src/my-app/src/services/voiceService.ts` — the `VoiceService` coordinator
  (state machine, command parsing, engine wiring).
- `src/src/mocks/runanywhere-voice.ts` — the three engine mocks
  (`WhisperSTT`, `PiperTTS`, `VoiceActivityDetector`).

Modelling conventions:
- JS strings are `List Char`; JS numbers used for confidences, durations and
  timestamps are `ℚ` (the arithmetic involved — sums, products, one division
  by a word count — is exact in every case the claims touch).
- The single-threaded timer model is explicit: every `setTimeout` becomes a
  `Timer` in `SystemState.pending` carrying a fresh id and an absolute fire
  time; `clearTimeout` removes a timer by id; firing a timer runs the exact
  callback body from the source.  `setInterval` of the VAD mock is modelled
  by the `intervalArmed` flag plus a `vadTick` step function.
- Single-slot callback wiring (`stt.setOnTranscript`, `tts.setOnStatus`,
  `vad.setOnVAD`) is modelled by per-engine `wired` flags; when a flag is
  set, emitting runs the handler the coordinator installs in `initialize()`
  (those handler bodies are inlined below, faithfully to the source).
  Outward subscriber callbacks (`onStateChange`, `onTranscript`,
  `onCommand`, `onThoughtAdded`, `onTTSStatusChange`) are recorded as
  events in the trace `SystemState.events`.
- `Math.random()` draws are passed in as parameters: the mock-phrase index
  `m : Fin 6` and the final-confidence draw `r : ℚ` (source computes
  `0.92 + Math.random() * 0.07` inside the final-timer callback; we compute
  the same expression from `r` when the timer is scheduled, which is
  observationally identical since `r` is fixed).
- Engine methods that `throw` (`startListening`/`speak`/`start` when the
  engine is not ready) return `Except Unit SystemState`; methods whose
  bodies cannot throw are total, exactly as in the mock source.
-/

namespace VoiceCore

/-- JS `String.prototype.toLowerCase` on the character list of a string. -/
def jsLower (l : List Char) : List Char := l.map Char.toLower

/-- Whitespace test backing JS `String.prototype.trim`. -/
def isWS (c : Char) : Bool := c.isWhitespace

/-- Drop trailing characters satisfying `p` (the right half of `trim`). -/
def trimEnd (p : Char → Bool) (l : List Char) : List Char :=
  (l.reverse.dropWhile p).reverse

/-- JS `String.prototype.trim`: drop leading and trailing whitespace. -/
def jsTrim (l : List Char) : List Char := trimEnd isWS (l.dropWhile isWS)

/-- `pat` is a leading segment of `s`. -/
def leadSeg : List Char → List Char → Bool
  | [], _ => true
  | _ :: _, [] => false
  | a :: pat, b :: s => a == b && leadSeg pat s

/-- JS `String.prototype.includes`: `pat` occurs contiguously inside `s`. -/
def occursIn (pat : List Char) : List Char → Bool
  | [] => pat.isEmpty
  | c :: rest => leadSeg pat (c :: rest) || occursIn pat rest

/-- JS `String.prototype.split(' ')`: split at every single space character;
adjacent separators produce empty fragments, and the empty string yields one
empty fragment, exactly as in JS. -/
def splitSp : List Char → List (List Char)
  | [] => [[]]
  | c :: rest =>
    match splitSp rest, c == ' ' with
    | r, true => [] :: r
    | [], false => [[c]]
    | w :: ws, false => (c :: w) :: ws

/-- `VoiceCommand['intent']` from `src/my-app/src/types`. -/
inductive Intent
  | audit | scan | explain | report | stop | help | unknown
deriving DecidableEq

/-- The `COMMAND_KEYWORDS` table of voiceService.ts, in source iteration
order (`Object.entries` iterates string keys in insertion order). -/
def COMMAND_KEYWORDS : List (List Char × Intent) :=
  [("audit".data, .audit),
   ("scan".data, .scan),
   ("vulnerabilities".data, .scan),
   ("vulnerability".data, .scan),
   ("explain".data, .explain),
   ("describe".data, .explain),
   ("report".data, .report),
   ("summary".data, .report),
   ("stop".data, .stop),
   ("cancel".data, .stop),
   ("help".data, .help),
   ("commands".data, .help)]

/-- The `for … of Object.entries(COMMAND_KEYWORDS)` loop with `break` from
`parseAndDispatchCommand`: first matching entry wins; no match gives
(`unknown`, `''`). -/
def scanKeywords : List (List Char × Intent) → List Char → Intent × List Char
  | [], _ => (.unknown, [])
  | (kw, i) :: rest, lower =>
    if occursIn kw lower then (i, kw) else scanKeywords rest lower

/-- The pure parsing core of `VoiceService.parseAndDispatchCommand`:
`const lower = transcript.toLowerCase().trim()` followed by the keyword
scan.  Returns matched intent and matched keyword. -/
def parseCommand (transcript : List Char) : Intent × List Char :=
  scanKeywords COMMAND_KEYWORDS (jsTrim (jsLower transcript))

/-- Parsing as the spec's own words describe it ("lower-cases the text and
returns the intent of the first keyword in fixed table order that occurs as
a substring, and intent `unknown` when no keyword matches") — no `trim`,
first match via `find?`.  Used to compare against `parseCommand`. -/
def specParseIntent (t : List Char) : Intent :=
  match COMMAND_KEYWORDS.find? (fun kv => occursIn kv.1 (jsLower t)) with
  | some kv => kv.2
  | none => .unknown

/-- The transcript text of `"what's the weather"` (apostrophe is
`Char.ofNat 39`). -/
def whatsWeather : List Char :=
  "what".data ++ [Char.ofNat 39] ++ "s the weather".data

/-- `VoiceListeningState` — the coordinator's pipeline state. -/
inductive VState
  | idle | listening | processing | speaking | error
deriving DecidableEq

/-- `AgentThought['type']` — severity of a diagnostic-log event. -/
inductive Sev
  | info | processing | success | warning | error
deriving DecidableEq

/-- Identifies which `addThought` call site of voiceService.ts produced a
diagnostic-log event (the messages are fixed strings in the source). -/
inductive Msg
  | initializing | loadingSTT | sttReady | loadingTTS | ttsReady
  | initializingVAD | vadReady | pipelineReady | initFailed
  | cannotListenNotInit | alreadyListening | listeningForCommand
  | maxRecordingReached | listeningFailed | stopListenFailed
  | cannotSpeakNotInit | speakingResults | finishedSpeaking | ttsFailed
  | transcriptInfo | unrecognizedCommand | commandDetected
  | vadSilenceDetected
deriving DecidableEq

/-- TTS status values passed to the `TTSCallback`. -/
inductive TStatus
  | started | finished | errored
deriving DecidableEq

/-- Callback payloads of one scheduled `setTimeout`.  Word/length/text/
confidence data captured by the JS closures is frozen into the payload at
scheduling time, exactly as closure capture freezes it in the source. -/
inductive TimerKind
  | sttInterim (i : ℕ) (word : List Char) (len : ℕ)
  | sttFinal (text : List Char) (conf : ℚ)
  | ttsFinish (resume : Bool)
  | svcRecording
  | svcProcReturn
deriving DecidableEq

/-- One scheduled `setTimeout`: fresh id, absolute fire time (ms), payload. -/
structure Timer where
  id : ℕ
  fireAt : ℚ
  kind : TimerKind
deriving DecidableEq

/-- `WhisperSTT` instance state.  `ready` is `initialized`, `wired` is
whether `setOnTranscript` was called, `acc` is the `partial` text
accumulator closure variable of the current listening session. -/
structure STTState where
  ready : Bool
  isListening : Bool
  wired : Bool
  acc : List Char
  currentTimeout : Option ℕ
  interimTimeout : Option ℕ
deriving DecidableEq

/-- `PiperTTS` instance state. -/
structure TTSState where
  ready : Bool
  isSpeaking : Bool
  wired : Bool
  currentTimeout : Option ℕ
deriving DecidableEq

/-- `VoiceActivityDetector` instance state.  `speechDetected` is the
closure variable of `start()`; `intervalArmed` models the live
`setInterval` handle. -/
structure VADState where
  ready : Bool
  isActive : Bool
  wired : Bool
  speechDetected : Bool
  intervalArmed : Bool
deriving DecidableEq

/-- `VoiceService` coordinator fields (`isInitialized`, `currentState`,
`recordingTimeout`). -/
structure SvcState where
  inited : Bool
  currentState : VState
  recordingTimeout : Option ℕ
deriving DecidableEq

/-- Events observable by the UI subscriber, in emission order. -/
inductive Ev
  | stateChange (st : VState) (vadActive : Bool)
  | transcript (text : List Char) (conf : ℚ) (isFinal : Bool)
  | command (intent : Intent) (keyword : List Char) (conf : ℚ)
  | ttsStatus (st : TStatus)
  | ttsSpeakingChanged (b : Bool)
  | vadEvent (b : Bool)
  | thought (sev : Sev) (msg : Msg)
deriving DecidableEq

/-- The whole single-threaded world: three engine singletons, the
coordinator, the timer queue, a fresh-id counter, the clock, the observable
event trace. -/
structure SystemState where
  stt : STTState
  tts : TTSState
  vad : VADState
  svc : SvcState
  pending : List Timer
  nextId : ℕ
  clock : ℚ
  events : List Ev
deriving DecidableEq

/-- Append one observable event. -/
def pushEv (s : SystemState) (e : Ev) : SystemState :=
  { s with events := s.events ++ [e] }

/-- `VoiceService.addThought` (the generated id/timestamp are not
observable and are dropped). -/
def addThought (s : SystemState) (sev : Sev) (msg : Msg) : SystemState :=
  pushEv s (.thought sev msg)

/-- `VoiceService.updateState`: set `currentState`, then emit the
state-changed snapshot (whose `vadActive` is `vad.getIsActive()`). -/
def updateState (s : SystemState) (st : VState) : SystemState :=
  pushEv { s with svc.currentState := st } (.stateChange st s.vad.isActive)

/-- `setTimeout(cb, delay)`: append a timer with a fresh id; returns the
new state and the timer id (the JS timeout handle). -/
def scheduleTimer (s : SystemState) (fireAt : ℚ) (k : TimerKind) :
    SystemState × ℕ :=
  ({ s with pending := s.pending ++ [⟨s.nextId, fireAt, k⟩],
            nextId := s.nextId + 1 }, s.nextId)

/-- `clearTimeout(handle)` guarded by `if (handle)`: drop the timer with
that id from the queue (idempotent; safe when nothing is pending). -/
def clearTimer (s : SystemState) (slot : Option ℕ) : SystemState :=
  match slot with
  | some id => { s with pending := s.pending.filter (fun u => u.id != id) }
  | none => s

/-- The effect of `clearTimeout` on the timer queue alone. -/
def dropId (l : List Timer) (o : Option ℕ) : List Timer :=
  match o with
  | some id => l.filter (fun u => u.id != id)
  | none => l

/-- `VoiceService.parseAndDispatchCommand` after the pure parse: log,
transition to `processing`, emit the command event, schedule the anonymous
500 ms return-to-idle timeout. -/
def parseAndDispatchCommand (s : SystemState) (text : List Char) (conf : ℚ) :
    SystemState :=
  let pr := parseCommand text
  let s := if pr.1 = .unknown then addThought s .warning .unrecognizedCommand
           else addThought s .success .commandDetected
  let s := updateState s .processing
  let s := pushEv s (.command pr.1 pr.2 conf)
  (scheduleTimer s (s.clock + 500) .svcProcReturn).1

/-- `WhisperSTT` invoking its transcript callback.  When wired, the handler
is the one `VoiceService.initialize` installs: record the transcript event
and, on a final result, log it and run `parseAndDispatchCommand`. -/
def sttEmit (s : SystemState) (text : List Char) (conf : ℚ)
    (isFinal : Bool) : SystemState :=
  if s.stt.wired then
    let s := pushEv s (.transcript text conf isFinal)
    if isFinal then
      parseAndDispatchCommand (addThought s .info .transcriptInfo) text conf
    else s
  else s

/-- `PiperTTS` invoking its status callback.  When wired, the handler is the
one `VoiceService.initialize` installs: forward `isSpeaking`, then
`updateState(isSpeaking ? 'speaking' : 'idle')`. -/
def ttsEmit (s : SystemState) (st : TStatus) : SystemState :=
  if s.tts.wired then
    let isSp := st == .started
    let s := pushEv s (.ttsStatus st)
    let s := pushEv s (.ttsSpeakingChanged isSp)
    updateState s (if isSp then .speaking else .idle)
  else s

/-- `VoiceActivityDetector` invoking its VAD callback.  When wired, the
handler logs only on silence-while-listening. -/
def vadEmit (s : SystemState) (b : Bool) : SystemState :=
  if s.vad.wired then
    let s := pushEv s (.vadEvent b)
    if !b && s.svc.currentState == .listening then
      addThought s .info .vadSilenceDetected
    else s
  else s

/-- `PiperTTS.stop`: cancel the speaking timer, clear the flag, fire a
`finished` status — also when nothing was being spoken. -/
def ttsStop (s : SystemState) : SystemState :=
  let s := clearTimer s s.tts.currentTimeout
  ttsEmit { s with tts.isSpeaking := false } .finished

/-- `PiperTTS.speak` duration:
`Math.min(Math.max(1000, (wordCount / 150) * 60 * 1000), 5000)`. -/
def ttsDur (text : List Char) : ℚ :=
  min (max 1000 (((splitSp text).length : ℚ) / 150 * 60 * 1000)) 5000

/-- `PiperTTS.speak`: throws when not ready; stops a current utterance
first; emits `started` synchronously; schedules the `finished` timer.
`resume` records whether an awaiting `speakAnalysis` continuation runs when
the timer fires (true when called from the coordinator). -/
def ttsSpeak (s : SystemState) (text : List Char) (resume : Bool) :
    Except Unit SystemState :=
  if s.tts.ready = false then .error ()
  else
    let s := if s.tts.isSpeaking then ttsStop s else s
    let s := ttsEmit { s with tts.isSpeaking := true } .started
    let tm := scheduleTimer s (s.clock + ttsDur text) (.ttsFinish resume)
    .ok { tm.1 with tts.currentTimeout := some tm.2 }

/-- The `MOCK_TRANSCRIPTS` table of runanywhere-voice.ts: phrase text and
final-result delay.  (The `intent` field of the source records is never
read by any code path and is omitted.) -/
def MOCK_TRANSCRIPTS : List (List Char × ℕ) :=
  [("audit the repository".data, 2000),
   ("scan for vulnerabilities".data, 2500),
   ("explain the security findings".data, 3000),
   ("generate security report".data, 2200),
   ("help me with commands".data, 1800),
   ("stop listening".data, 1500)]

/-- The interim-result timer loop of `WhisperSTT.startListening`: one timer
per word, at `400 + i * 350` ms, carrying the closure-captured word index,
word, and word count. -/
def interimTimers (base : ℕ) (clock : ℚ) (ws : List (List Char)) :
    List Timer :=
  (List.range ws.length).map fun i =>
    ⟨base + i, clock + 400 + 350 * (i : ℚ), .sttInterim i (ws.getD i []) ws.length⟩

/-- `WhisperSTT.startListening`: throws when not ready; no-op when already
listening; otherwise picks mock phrase `m`, schedules one interim timer per
word (the `interimTimeout` slot keeps only the last handle — each loop
iteration overwrites it) and the final timer at the phrase delay
(`currentTimeout` slot).  `r` is the `Math.random()` draw for the final
confidence `0.92 + r * 0.07`. -/
def sttStartListening (s : SystemState) (m : Fin 6) (r : ℚ) :
    Except Unit SystemState :=
  if s.stt.ready = false then .error ()
  else if s.stt.isListening then .ok s
  else
    let mock := MOCK_TRANSCRIPTS.get ⟨m.val, m.isLt⟩
    let ws := splitSp mock.1
    let s := { s with stt.isListening := true, stt.acc := [] }
    let base := s.nextId
    let s := { s with
      pending := s.pending ++ interimTimers base s.clock ws,
      nextId := base + ws.length,
      stt.interimTimeout :=
        if ws.length = 0 then s.stt.interimTimeout
        else some (base + ws.length - 1) }
    let tm := scheduleTimer s (s.clock + (mock.2 : ℚ))
      (.sttFinal mock.1 (92/100 + r * (7/100)))
    .ok { tm.1 with stt.currentTimeout := some tm.2 }

/-- `WhisperSTT.stopListening`: clear the flag, then `clearTimeout` the two
slots (`currentTimeout`, `interimTimeout`).  Cannot throw. -/
def sttStopListening (s : SystemState) : SystemState :=
  let s := { s with stt.isListening := false }
  let s := clearTimer s s.stt.currentTimeout
  clearTimer s s.stt.interimTimeout

/-- `VoiceActivityDetector.start`: throws when not ready; arms the 500 ms
interval with a fresh `speechDetected` closure variable. -/
def vadStart (s : SystemState) : Except Unit SystemState :=
  if s.vad.ready = false then .error ()
  else .ok { s with vad.isActive := true, vad.speechDetected := false,
                    vad.intervalArmed := true }

/-- One tick of the VAD `setInterval` callback. -/
def vadTick (s : SystemState) : SystemState :=
  if s.vad.intervalArmed then
    if s.vad.isActive = false then s
    else if s.vad.speechDetected = false then
      vadEmit { s with vad.speechDetected := true } true
    else s
  else s

/-- `VoiceActivityDetector.triggerSilence`. -/
def vadTriggerSilence (s : SystemState) : SystemState := vadEmit s false

/-- `VoiceActivityDetector.stop`: clear the flag and the interval. -/
def vadStop (s : SystemState) : SystemState :=
  { s with vad.isActive := false, vad.intervalArmed := false }

/-- Fault directives for the three engine-initialization awaits of
`VoiceService.initialize`.  The mock engines' `initialize` methods always
succeed, so the real mock behaviour is `noFaults`; a `true` component makes
the corresponding await throw, exercising the guard the source's
`try`/`catch` provides (the spec: "a faithful reimplementation must still
guard against it"). -/
structure InitFaults where
  stt : Bool
  tts : Bool
  vad : Bool
deriving DecidableEq

/-- The `catch` block of `VoiceService.initialize`: log, go to `error`,
report failure. -/
def initFailure (s : SystemState) : SystemState × Bool :=
  (updateState (addThought s .error .initFailed) .error, false)

/-- `VoiceService.initialize`: initialize STT, TTS, VAD in order (each mock
`initialize` sets its ready flag), wire the three callbacks, mark
initialized, transition to `idle`, return success; any step's failure runs
the catch block instead. -/
def initPipeline (s : SystemState) (f : InitFaults) : SystemState × Bool :=
  let s := addThought s .processing .initializing
  let s := addThought s .processing .loadingSTT
  if f.stt then initFailure s
  else
    let s := addThought { s with stt.ready := true } .success .sttReady
    let s := addThought s .processing .loadingTTS
    if f.tts then initFailure s
    else
      let s := addThought { s with tts.ready := true } .success .ttsReady
      let s := addThought s .processing .initializingVAD
      if f.vad then initFailure s
      else
        let s := addThought { s with vad.ready := true } .success .vadReady
        let s := { s with stt.wired := true, tts.wired := true,
                          vad.wired := true }
        let s := addThought { s with svc.inited := true } .success .pipelineReady
        (updateState s .idle, true)

/-- The `catch` block of `VoiceService.startListening`: log the failure and
`updateState('error')`. -/
def listenFailure (s : SystemState) : SystemState :=
  updateState (addThought s .error .listeningFailed) .error

/-- `VoiceService.startListening`: rejected when uninitialized or already
`listening`; stops TTS if speaking; then (inside `try`) goes to
`listening`, starts VAD (`vadEnabled` is true in the default config),
starts STT, and arms the 30000 ms max-recording safety timeout. -/
def startListening (s : SystemState) (m : Fin 6) (r : ℚ) : SystemState :=
  if s.svc.inited = false then addThought s .error .cannotListenNotInit
  else if s.svc.currentState = .listening then
    addThought s .warning .alreadyListening
  else
    let s := if s.tts.isSpeaking then ttsStop s else s
    let s := addThought (updateState s .listening) .processing
      .listeningForCommand
    match vadStart s with
    | .error _ => listenFailure s
    | .ok s1 =>
      match sttStartListening s1 m r with
      | .error _ => listenFailure s1
      | .ok s2 =>
        let tm := scheduleTimer s2 (s2.clock + 30000) .svcRecording
        { tm.1 with svc.recordingTimeout := some tm.2 }

/-- `VoiceService.stopListening`: clear the recording timeout, stop STT and
VAD (neither can throw in the mock, so the source's `catch` is dead code),
and return to `idle` when currently `listening`. -/
def stopListening (s : SystemState) : SystemState :=
  let s := clearTimer s s.svc.recordingTimeout
  let s := vadStop (sttStopListening s)
  if s.svc.currentState = .listening then updateState s .idle else s

/-- `VoiceService.speakAnalysis`: rejected when uninitialized; stops
listening first when the STT engine is listening; goes to `speaking` and
starts synthesis.  When `tts.speak` throws, the `catch` logs and the
`finally` returns to `idle`; when it succeeds, the success-path
continuation is deferred to the speak timer (`resume := true`). -/
def speakAnalysis (s : SystemState) (text : List Char) : SystemState :=
  if s.svc.inited = false then addThought s .error .cannotSpeakNotInit
  else
    let s := if s.stt.isListening then stopListening s else s
    let s := addThought (updateState s .speaking) .processing .speakingResults
    match ttsSpeak s text true with
    | .ok s1 => s1
    | .error _ =>
      let s := addThought s .error .ttsFailed
      if s.svc.currentState = .speaking then updateState s .idle else s

/-- `VoiceService.stopSpeaking`: stop TTS (total in the mock), then return
to `idle` when still `speaking`. -/
def stopSpeaking (s : SystemState) : SystemState :=
  let s := ttsStop s
  if s.svc.currentState = .speaking then updateState s .idle else s

/-- Fire the pending timer with the given id (no-op when none is pending):
remove it from the queue, advance the clock to its fire time, and run the
source callback body for its payload. -/
def fireTimerId (s : SystemState) (id : ℕ) : SystemState :=
  match s.pending.find? (fun t => t.id == id) with
  | none => s
  | some t =>
    let s := { s with pending := s.pending.filter (fun u => u.id != id),
                      clock := t.fireAt }
    match t.kind with
    | .sttInterim i word len =>
      -- `if (!this.isListening) return; partial += …; onTranscript(partial, 0.5 + (i / words.length) * 0.3, false)`
      if s.stt.isListening then
        let acc := s.stt.acc ++ (if 0 < i then [' '] else []) ++ word
        sttEmit { s with stt.acc := acc } acc
          (1/2 + ((i : ℚ) / (len : ℚ)) * (3/10)) false
      else s
    | .sttFinal text conf =>
      -- `if (!this.isListening) return; onTranscript(text, conf, true); this.isListening = false`
      if s.stt.isListening then
        { sttEmit s text conf true with stt.isListening := false }
      else s
    | .ttsFinish resume =>
      -- `this.isSpeaking = false; onStatus('finished'); resolve()`
      let s := ttsEmit { s with tts.isSpeaking := false } .finished
      if resume then
        -- the awaiting `speakAnalysis` continuation: success log + `finally`
        let s := addThought s .success .finishedSpeaking
        if s.svc.currentState = .speaking then updateState s .idle else s
      else s
    | .svcRecording =>
      -- the max-recording safety timeout of `startListening`
      if s.svc.currentState = .listening then
        stopListening (addThought s .warning .maxRecordingReached)
      else s
    | .svcProcReturn =>
      -- the anonymous 500 ms return-to-idle timeout of `parseAndDispatchCommand`
      if s.svc.currentState = .processing then updateState s .idle else s

/-- Fire a sequence of timer ids in order. -/
def fireMany (s : SystemState) (ids : List ℕ) : SystemState :=
  ids.foldl fireTimerId s

/-- The transcript events of a trace, as (confidence, isFinal) pairs in
emission order. -/
def transcriptsOf (s : SystemState) : List (ℚ × Bool) :=
  s.events.filterMap fun e =>
    match e with
    | .transcript _ c f => some (c, f)
    | _ => none

/-- Timers belonging to the speech engine. -/
def isSTTTimer : TimerKind → Bool
  | .sttInterim .. => true
  | .sttFinal .. => true
  | _ => false

/-- Timers whose payload is the final-transcript callback. -/
def isFinalTimer : TimerKind → Bool
  | .sttFinal .. => true
  | _ => false

/-- The speech-engine timers still pending. -/
def sttPendingOf (s : SystemState) : List Timer :=
  s.pending.filter (fun t => isSTTTimer t.kind)

/-- The process-start state: nothing ready, nothing wired, empty queue. -/
def boot : SystemState :=
  { stt := { ready := false, isListening := false, wired := false, acc := [],
             currentTimeout := none, interimTimeout := none },
    tts := { ready := false, isSpeaking := false, wired := false,
             currentTimeout := none },
    vad := { ready := false, isActive := false, wired := false,
             speechDetected := false, intervalArmed := false },
    svc := { inited := false, currentState := .idle, recordingTimeout := none },
    pending := [], nextId := 0, clock := 0, events := [] }

/-- The fault-free directive: what the mock engines actually do. -/
def noFaults : InitFaults := ⟨false, false, false⟩

/-- The pipeline right after a successful `initialize()`. -/
def readyState : SystemState := (initPipeline boot noFaults).1

/-- Extract the state of a successful engine call. -/
def exceptState (e : Except Unit SystemState) (dflt : SystemState) :
    SystemState := e.toOption.getD dflt

/-- Start a listening session on the ready pipeline and fire all speech
timers in queue order (which the C9 theorem shows is fire-time order),
producing the full transcript stream of one session. -/
def sessionRun (m : Fin 6) (r : ℚ) : SystemState :=
  let s := startListening readyState m r
  fireMany s ((sttPendingOf s).map (fun t => t.id))

/-- Concrete state for the C1 counterexample: a fully initialized
coordinator whose VAD engine singleton has been destroyed (its public
`destroy()` clears `initialized`), so `vad.start()` throws inside
`startListening`'s `try`. -/
def c1bad : SystemState := { readyState with vad.ready := false }

/-- Concrete state for the C1 amended-claim witness: initialized
coordinator with both the VAD and TTS engine singletons destroyed, so both
`vad.start()` and `tts.speak()` throw. -/
def c1bad2 : SystemState :=
  { readyState with vad.ready := false, tts.ready := false }

/-- Concrete state for C2: the speech engine right after
`startListening()` picked mock phrase 0 ("audit the repository", 3 words)
on the ready pipeline. -/
def c2start : SystemState := exceptState (sttStartListening readyState 0 0) boot

/-- Concrete state for the C6 witness: the coordinator mid-session. -/
def c6listen : SystemState := startListening readyState 0 0

/-- Concrete state for the C8 witness: the detector right after
`start()`. -/
def c8started : SystemState := exceptState (vadStart readyState) boot



/-! ### Parsing lemmas (claim C4) -/

theorem leadSeg_iff (pat : List Char) :
    ∀ s, leadSeg pat s = true ↔ ∃ b, s = pat ++ b := by
  induction pat with
  | nil => intro s; simp [leadSeg]
  | cons a pt ih =>
    intro s
    cases s with
    | nil => simp [leadSeg]
    | cons b bs =>
      simp only [leadSeg, Bool.and_eq_true, beq_iff_eq, ih, List.cons_append]
      constructor
      · rintro ⟨rfl, c, rfl⟩; exact ⟨c, rfl⟩
      · rintro ⟨c, h⟩
        injection h with h1 h2
        exact ⟨h1.symm, c, h2⟩

theorem occursIn_iff (pat : List Char) :
    ∀ s, occursIn pat s = true ↔ ∃ a b, s = a ++ (pat ++ b) := by
  intro s
  induction s with
  | nil =>
    simp only [occursIn, List.isEmpty_iff]
    constructor
    · rintro rfl; exact ⟨[], [], rfl⟩
    · rintro ⟨a, b, h⟩
      rcases List.append_eq_nil.mp h.symm with ⟨rfl, h2⟩
      exact (List.append_eq_nil.mp h2).1
  | cons c rest ih =>
    simp only [occursIn, Bool.or_eq_true, leadSeg_iff, ih]
    constructor
    · rintro (⟨b, h⟩ | ⟨a, b, rfl⟩)
      · exact ⟨[], b, by simpa using h⟩
      · exact ⟨c :: a, b, rfl⟩
    · rintro ⟨a, b, h⟩
      cases a with
      | nil => exact Or.inl ⟨b, by simpa using h⟩
      | cons x a' =>
        injection h with h1 h2
        exact Or.inr ⟨a', b, h2⟩

theorem dropWhile_mid (p : Char → Bool) (c : Char) (pt b : List Char)
    (hc : p c = false) :
    ∀ a, List.dropWhile p (a ++ ((c :: pt) ++ b)) =
      List.dropWhile p a ++ ((c :: pt) ++ b) := by
  intro a
  induction a with
  | nil => simp [List.dropWhile_cons, hc]
  | cons x xs ih =>
    by_cases hx : p x = true
    · rw [List.cons_append, List.dropWhile_cons, if_pos hx, List.dropWhile_cons,
        if_pos hx]
      exact ih
    · simp [List.dropWhile_cons, hx]

theorem dropWhile_decomp (p : Char → Bool) :
    ∀ l : List Char, ∃ a, l = a ++ l.dropWhile p := by
  intro l
  induction l with
  | nil => exact ⟨[], rfl⟩
  | cons x xs ih =>
    by_cases hx : p x = true
    · rcases ih with ⟨a, ha⟩
      refine ⟨x :: a, ?_⟩
      rw [List.dropWhile_cons, if_pos hx, List.cons_append]
      exact congrArg (x :: ·) ha
    · exact ⟨[], by rw [List.dropWhile_cons, if_neg hx, List.nil_append]⟩

theorem trimEnd_decomp (p : Char → Bool) (l : List Char) :
    ∃ b, l = trimEnd p l ++ b := by
  rcases dropWhile_decomp p l.reverse with ⟨a, ha⟩
  refine ⟨a.reverse, ?_⟩
  have h := congrArg List.reverse ha
  rw [List.reverse_reverse, List.reverse_append] at h
  simpa [trimEnd] using h

theorem trimEnd_mid (p : Char → Bool) (pat : List Char) (hne : pat ≠ [])
    (hpat : ∀ c ∈ pat, p c = false) (a b : List Char) :
    trimEnd p (a ++ (pat ++ b)) = a ++ (pat ++ trimEnd p b) := by
  cases hrev : pat.reverse with
  | nil => exact absurd (by simpa using hrev) hne
  | cons c ptr =>
    have hcp : c ∈ pat := by
      have : c ∈ pat.reverse := by rw [hrev]; exact List.mem_cons_self _ _
      simpa using this
    have hc : p c = false := hpat c hcp
    have hrr : (c :: ptr).reverse = pat := by rw [← hrev, List.reverse_reverse]
    unfold trimEnd
    rw [show (a ++ (pat ++ b)).reverse = b.reverse ++ ((c :: ptr) ++ a.reverse) by
      rw [List.reverse_append, List.reverse_append, ← hrev, List.append_assoc]]
    rw [dropWhile_mid p c ptr a.reverse hc b.reverse]
    simp only [List.reverse_append, List.reverse_reverse, hrr, List.append_assoc]



theorem occursIn_jsTrim (pat l : List Char) (hne : pat ≠ [])
    (hws : ∀ c ∈ pat, isWS c = false) :
    occursIn pat (jsTrim l) = occursIn pat l := by
  have hgoal : occursIn pat (jsTrim l) = true ↔ occursIn pat l = true := by
    constructor
    · intro h
      rcases (occursIn_iff pat (jsTrim l)).mp h with ⟨u, v, huv⟩
      rcases dropWhile_decomp isWS l with ⟨x, hx⟩
      rcases trimEnd_decomp isWS (l.dropWhile isWS) with ⟨y, hy⟩
      apply (occursIn_iff pat l).mpr
      refine ⟨x ++ u, v ++ y, ?_⟩
      rw [hx, hy]
      rw [show trimEnd isWS (l.dropWhile isWS) = jsTrim l from rfl, huv]
      simp [List.append_assoc]
    · intro h
      rcases (occursIn_iff pat l).mp h with ⟨u, v, huv⟩
      apply (occursIn_iff pat (jsTrim l)).mpr
      cases hp : pat with
      | nil => exact absurd hp hne
      | cons c pt =>
        have hc : isWS c = false := by
          apply hws; rw [hp]; exact List.mem_cons_self _ _
        refine ⟨List.dropWhile isWS u, trimEnd isWS v, ?_⟩
        rw [show jsTrim l = trimEnd isWS (l.dropWhile isWS) from rfl, huv, hp]
        rw [dropWhile_mid isWS c pt v hc u]
        rw [trimEnd_mid isWS (c :: pt) (by simp) (by rw [← hp]; exact hws)]
  cases h1 : occursIn pat (jsTrim l) with
  | true => exact (hgoal.mp h1).symm
  | false =>
    cases h2 : occursIn pat l with
    | true => exact absurd (hgoal.mpr h2) (by simp [h1])
    | false => rfl

theorem scanKeywords_congr : ∀ tbl : List (List Char × Intent), ∀ u v,
    (∀ kv ∈ tbl, occursIn kv.1 u = occursIn kv.1 v) →
    scanKeywords tbl u = scanKeywords tbl v := by
  intro tbl
  induction tbl with
  | nil => intro u v _; rfl
  | cons kv rest ih =>
    intro u v h
    obtain ⟨kw, i⟩ := kv
    have hh := h (kw, i) (List.mem_cons_self _ _)
    simp only [scanKeywords]
    rw [show occursIn (kw, i).1 u = occursIn (kw, i).1 v from hh]
    by_cases hv : occursIn kw v = true
    · simp [hv]
    · simp only [hv, if_neg, Bool.false_eq_true, if_false]
      exact ih u v (fun kv hk => h kv (List.mem_cons_of_mem _ hk))

theorem scanKeywords_eq_find (u : List Char) :
    ∀ tbl : List (List Char × Intent),
    (scanKeywords tbl u).1 =
      (match tbl.find? (fun kv => occursIn kv.1 u) with
       | some kv => kv.2
       | none => Intent.unknown) := by
  intro tbl
  induction tbl with
  | nil => rfl
  | cons kv rest ih =>
    obtain ⟨kw, i⟩ := kv
    by_cases h : occursIn kw u = true
    · simp [scanKeywords, List.find?, h]
    · simp only [scanKeywords, List.find?, h, Bool.false_eq_true, if_false]
      simpa using ih

theorem kwOK : ∀ kv ∈ COMMAND_KEYWORDS,
    kv.1 ≠ [] ∧ ∀ c ∈ kv.1, isWS c = false := by decide



/-- C4: command parsing lower-cases the transcript and returns the intent
of the first keyword of `COMMAND_KEYWORDS`, in fixed table order, that
occurs as a substring, and `unknown` when none matches (the source also
trims the lowered text, which cannot change any keyword match since no
keyword contains whitespace); in particular "please scan for
vulnerabilities" parses to `scan` and "what's the weather" parses to
`unknown`. -/
theorem C4_parse_first_keyword_wins :
    (∀ t : List Char, (parseCommand t).1 = specParseIntent t) ∧
    (parseCommand "please scan for vulnerabilities".data).1 = Intent.scan ∧
    (parseCommand whatsWeather).1 = Intent.unknown := by
  refine ⟨?_, by decide, by decide⟩
  intro t
  have h1 : scanKeywords COMMAND_KEYWORDS (jsTrim (jsLower t)) =
      scanKeywords COMMAND_KEYWORDS (jsLower t) := by
    apply scanKeywords_congr
    intro kv hkv
    rcases kwOK kv hkv with ⟨hne, hws⟩
    exact occursIn_jsTrim kv.1 (jsLower t) hne hws
  unfold parseCommand specParseIntent
  rw [h1]
  exact scanKeywords_eq_find (jsLower t) COMMAND_KEYWORDS




/-! ### Frame lemmas for the system model -/

@[simp] theorem pushEv_stt (s : SystemState) (e : Ev) : (pushEv s e).stt = s.stt := rfl
@[simp] theorem pushEv_tts (s : SystemState) (e : Ev) : (pushEv s e).tts = s.tts := rfl
@[simp] theorem pushEv_vad (s : SystemState) (e : Ev) : (pushEv s e).vad = s.vad := rfl
@[simp] theorem pushEv_svc (s : SystemState) (e : Ev) : (pushEv s e).svc = s.svc := rfl
@[simp] theorem pushEv_pending (s : SystemState) (e : Ev) : (pushEv s e).pending = s.pending := rfl
@[simp] theorem pushEv_nextId (s : SystemState) (e : Ev) : (pushEv s e).nextId = s.nextId := rfl
@[simp] theorem pushEv_clock (s : SystemState) (e : Ev) : (pushEv s e).clock = s.clock := rfl
@[simp] theorem pushEv_events (s : SystemState) (e : Ev) : (pushEv s e).events = s.events ++ [e] := rfl

@[simp] theorem addThought_eq (s : SystemState) (sev : Sev) (m : Msg) :
    addThought s sev m = pushEv s (.thought sev m) := rfl

@[simp] theorem updateState_stt (s : SystemState) (st : VState) : (updateState s st).stt = s.stt := rfl
@[simp] theorem updateState_tts (s : SystemState) (st : VState) : (updateState s st).tts = s.tts := rfl
@[simp] theorem updateState_vad (s : SystemState) (st : VState) : (updateState s st).vad = s.vad := rfl
@[simp] theorem updateState_pending (s : SystemState) (st : VState) : (updateState s st).pending = s.pending := rfl
@[simp] theorem updateState_nextId (s : SystemState) (st : VState) : (updateState s st).nextId = s.nextId := rfl
@[simp] theorem updateState_clock (s : SystemState) (st : VState) : (updateState s st).clock = s.clock := rfl
@[simp] theorem updateState_currentState (s : SystemState) (st : VState) :
    (updateState s st).svc.currentState = st := rfl
@[simp] theorem updateState_inited (s : SystemState) (st : VState) :
    (updateState s st).svc.inited = s.svc.inited := rfl
@[simp] theorem updateState_recording (s : SystemState) (st : VState) :
    (updateState s st).svc.recordingTimeout = s.svc.recordingTimeout := rfl
@[simp] theorem updateState_events (s : SystemState) (st : VState) :
    (updateState s st).events = s.events ++ [.stateChange st s.vad.isActive] := rfl

@[simp] theorem scheduleTimer_fst_stt (s : SystemState) (q : ℚ) (k : TimerKind) :
    (scheduleTimer s q k).1.stt = s.stt := rfl
@[simp] theorem scheduleTimer_fst_tts (s : SystemState) (q : ℚ) (k : TimerKind) :
    (scheduleTimer s q k).1.tts = s.tts := rfl
@[simp] theorem scheduleTimer_fst_vad (s : SystemState) (q : ℚ) (k : TimerKind) :
    (scheduleTimer s q k).1.vad = s.vad := rfl
@[simp] theorem scheduleTimer_fst_svc (s : SystemState) (q : ℚ) (k : TimerKind) :
    (scheduleTimer s q k).1.svc = s.svc := rfl
@[simp] theorem scheduleTimer_fst_events (s : SystemState) (q : ℚ) (k : TimerKind) :
    (scheduleTimer s q k).1.events = s.events := rfl
@[simp] theorem scheduleTimer_fst_clock (s : SystemState) (q : ℚ) (k : TimerKind) :
    (scheduleTimer s q k).1.clock = s.clock := rfl
@[simp] theorem scheduleTimer_fst_nextId (s : SystemState) (q : ℚ) (k : TimerKind) :
    (scheduleTimer s q k).1.nextId = s.nextId + 1 := rfl
@[simp] theorem scheduleTimer_fst_pending (s : SystemState) (q : ℚ) (k : TimerKind) :
    (scheduleTimer s q k).1.pending = s.pending ++ [⟨s.nextId, q, k⟩] := rfl
@[simp] theorem scheduleTimer_snd (s : SystemState) (q : ℚ) (k : TimerKind) :
    (scheduleTimer s q k).2 = s.nextId := rfl

@[simp] theorem clearTimer_stt (s : SystemState) (o : Option ℕ) : (clearTimer s o).stt = s.stt := by
  cases o <;> rfl
@[simp] theorem clearTimer_tts (s : SystemState) (o : Option ℕ) : (clearTimer s o).tts = s.tts := by
  cases o <;> rfl
@[simp] theorem clearTimer_vad (s : SystemState) (o : Option ℕ) : (clearTimer s o).vad = s.vad := by
  cases o <;> rfl
@[simp] theorem clearTimer_svc (s : SystemState) (o : Option ℕ) : (clearTimer s o).svc = s.svc := by
  cases o <;> rfl
@[simp] theorem clearTimer_events (s : SystemState) (o : Option ℕ) : (clearTimer s o).events = s.events := by
  cases o <;> rfl
@[simp] theorem clearTimer_nextId (s : SystemState) (o : Option ℕ) : (clearTimer s o).nextId = s.nextId := by
  cases o <;> rfl
@[simp] theorem clearTimer_clock (s : SystemState) (o : Option ℕ) : (clearTimer s o).clock = s.clock := by
  cases o <;> rfl

@[simp] theorem ttsEmit_stt (s : SystemState) (st : TStatus) : (ttsEmit s st).stt = s.stt := by
  unfold ttsEmit; split <;> simp
@[simp] theorem ttsEmit_tts (s : SystemState) (st : TStatus) : (ttsEmit s st).tts = s.tts := by
  unfold ttsEmit; split <;> simp
@[simp] theorem ttsEmit_vad (s : SystemState) (st : TStatus) : (ttsEmit s st).vad = s.vad := by
  unfold ttsEmit; split <;> simp
@[simp] theorem ttsEmit_pending (s : SystemState) (st : TStatus) : (ttsEmit s st).pending = s.pending := by
  unfold ttsEmit; split <;> simp
@[simp] theorem ttsEmit_nextId (s : SystemState) (st : TStatus) : (ttsEmit s st).nextId = s.nextId := by
  unfold ttsEmit; split <;> simp
@[simp] theorem ttsEmit_clock (s : SystemState) (st : TStatus) : (ttsEmit s st).clock = s.clock := by
  unfold ttsEmit; split <;> simp
@[simp] theorem ttsEmit_inited (s : SystemState) (st : TStatus) :
    (ttsEmit s st).svc.inited = s.svc.inited := by
  unfold ttsEmit; split <;> simp
@[simp] theorem ttsEmit_recording (s : SystemState) (st : TStatus) :
    (ttsEmit s st).svc.recordingTimeout = s.svc.recordingTimeout := by
  unfold ttsEmit; split <;> simp

theorem ttsEmit_wired (s : SystemState) (st : TStatus) (h : s.tts.wired = true) :
    ttsEmit s st =
      updateState (pushEv (pushEv s (.ttsStatus st)) (.ttsSpeakingChanged (st == .started)))
        (if st == .started then .speaking else .idle) := by
  simp [ttsEmit, h]

@[simp] theorem ttsStop_stt (s : SystemState) : (ttsStop s).stt = s.stt := by
  unfold ttsStop; simp
@[simp] theorem ttsStop_vad (s : SystemState) : (ttsStop s).vad = s.vad := by
  unfold ttsStop; simp
@[simp] theorem ttsStop_ready (s : SystemState) : (ttsStop s).tts.ready = s.tts.ready := by
  unfold ttsStop; simp
@[simp] theorem ttsStop_wired (s : SystemState) : (ttsStop s).tts.wired = s.tts.wired := by
  unfold ttsStop; simp
@[simp] theorem ttsStop_isSpeaking (s : SystemState) : (ttsStop s).tts.isSpeaking = false := by
  unfold ttsStop; simp
@[simp] theorem ttsStop_inited (s : SystemState) : (ttsStop s).svc.inited = s.svc.inited := by
  unfold ttsStop; simp
@[simp] theorem ttsStop_nextId (s : SystemState) : (ttsStop s).nextId = s.nextId := by
  unfold ttsStop; simp
@[simp] theorem ttsStop_clock (s : SystemState) : (ttsStop s).clock = s.clock := by
  unfold ttsStop; simp

@[simp] theorem sttStopListening_tts (s : SystemState) : (sttStopListening s).tts = s.tts := by
  unfold sttStopListening; simp
@[simp] theorem sttStopListening_vad (s : SystemState) : (sttStopListening s).vad = s.vad := by
  unfold sttStopListening; simp
@[simp] theorem sttStopListening_svc (s : SystemState) : (sttStopListening s).svc = s.svc := by
  unfold sttStopListening; simp
@[simp] theorem sttStopListening_events (s : SystemState) : (sttStopListening s).events = s.events := by
  unfold sttStopListening; simp
@[simp] theorem sttStopListening_isListening (s : SystemState) :
    (sttStopListening s).stt.isListening = false := by
  unfold sttStopListening
  have h1 := clearTimer_stt { s with stt.isListening := false } s.stt.currentTimeout
  have h2 := clearTimer_stt (clearTimer { s with stt.isListening := false } s.stt.currentTimeout)
    (clearTimer { s with stt.isListening := false } s.stt.currentTimeout).stt.interimTimeout
  rw [h2, h1]

@[simp] theorem vadStop_stt (s : SystemState) : (vadStop s).stt = s.stt := rfl
@[simp] theorem vadStop_tts (s : SystemState) : (vadStop s).tts = s.tts := rfl
@[simp] theorem vadStop_svc (s : SystemState) : (vadStop s).svc = s.svc := rfl
@[simp] theorem vadStop_events (s : SystemState) : (vadStop s).events = s.events := rfl
@[simp] theorem vadStop_pending (s : SystemState) : (vadStop s).pending = s.pending := rfl
@[simp] theorem vadStop_isActive (s : SystemState) : (vadStop s).vad.isActive = false := rfl

@[simp] theorem stopListening_tts (s : SystemState) : (stopListening s).tts = s.tts := by
  unfold stopListening; dsimp only; split <;> simp
@[simp] theorem stopListening_isListening (s : SystemState) :
    (stopListening s).stt.isListening = false := by
  unfold stopListening; dsimp only; split <;> simp
@[simp] theorem stopListening_inited (s : SystemState) :
    (stopListening s).svc.inited = s.svc.inited := by
  unfold stopListening; dsimp only; split <;> simp




/-- C3: `initialize()` is total: with no faults it completes every step,
transitions to `idle`, marks everything ready/initialized and returns
success; with any faulted step it aborts (later engines stay untouched),
transitions to `error` and returns failure.  The state is never left
unset. -/
theorem C3_init_idle_or_error (s : SystemState) (f : InitFaults) :
    (initPipeline s f).2 = (!f.stt && !f.tts && !f.vad) ∧
    (initPipeline s f).1.svc.currentState =
      (if !f.stt && !f.tts && !f.vad then VState.idle else VState.error) ∧
    (initPipeline s f).1.svc.inited =
      (if !f.stt && !f.tts && !f.vad then true else s.svc.inited) ∧
    (initPipeline s f).1.stt.ready = (if f.stt then s.stt.ready else true) ∧
    (initPipeline s f).1.tts.ready =
      (if f.stt || f.tts then s.tts.ready else true) ∧
    (initPipeline s f).1.vad.ready =
      (if f.stt || f.tts || f.vad then s.vad.ready else true) := by
  obtain ⟨fs, ft, fv⟩ := f
  cases fs <;> cases ft <;> cases fv <;>
    simp [initPipeline, initFailure]

/-- C6: a `startListening()` call made while the pipeline state is already
`listening` only appends the "Already listening..." warning to the trace —
the state is otherwise unchanged, so no second set of timers is created
and at most one final-transcript event can fire per session. -/
theorem C6_reject_double_listen (s : SystemState) (m : Fin 6) (r : ℚ)
    (h1 : s.svc.inited = true) (h2 : s.svc.currentState = .listening) :
    startListening s m r = pushEv s (.thought .warning .alreadyListening) ∧
    (startListening s m r).pending = s.pending := by
  have h : startListening s m r = pushEv s (.thought .warning .alreadyListening) := by
    unfold startListening
    simp [h1, h2]
  exact ⟨h, by rw [h]; simp⟩

/-- Witness for C6 at the concrete mid-session state `c6listen`. -/
theorem C6_reject_double_listen_witness :
    c6listen.svc.inited = true ∧ c6listen.svc.currentState = .listening ∧
    (startListening c6listen 0 0 = pushEv c6listen (.thought .warning .alreadyListening) ∧
     (startListening c6listen 0 0).pending = c6listen.pending) :=
  ⟨by decide, by decide, C6_reject_double_listen c6listen 0 0 (by decide) (by decide)⟩

/-- C1 counterexample: on `c1bad` (initialized pipeline whose VAD engine
has been destroyed), the engine failure caught inside
`startListening`'s `try` leaves the pipeline state `error`, not `idle`, as
witnessed by the logged "Listening failed" diagnostic. -/
theorem C1_counterexample :
    (startListening c1bad 0 0).svc.currentState = VState.error ∧
    (startListening c1bad 0 0).svc.currentState ≠ VState.idle ∧
    Ev.thought .error .listeningFailed ∈ (startListening c1bad 0 0).events :=
  ⟨by decide, by decide, by decide⟩

/-- C1 (amended): an engine failure caught during `speakAnalysis` degrades
the state to `idle`, but an engine failure caught during `startListening`
transitions the state to `error`; so the pipeline reaches `error` both
when `initialize()` fails and when `startListening()`'s try block fails. -/
theorem C1_amended_error_states (s : SystemState) (m : Fin 6) (r : ℚ)
    (text : List Char)
    (h1 : s.svc.inited = true) (h2 : s.svc.currentState ≠ .listening)
    (h3 : s.vad.ready = false) (h4 : s.tts.ready = false) :
    (startListening s m r).svc.currentState = VState.error ∧
    (speakAnalysis s text).svc.currentState = VState.idle := by
  constructor
  · unfold startListening
    simp only [h1, Bool.true_eq_false, if_false, h2, ite_false]
    by_cases hsp : s.tts.isSpeaking = true
    · simp only [hsp, if_true]
      have hv : vadStart (addThought (updateState (ttsStop s) .listening)
          .processing .listeningForCommand) = .error () := by
        unfold vadStart
        simp [h3]
      rw [hv]
      unfold listenFailure
      simp
    · simp only [Bool.not_eq_true] at hsp
      simp only [hsp, Bool.false_eq_true, if_false]
      have hv : vadStart (addThought (updateState s .listening)
          .processing .listeningForCommand) = .error () := by
        unfold vadStart
        simp [h3]
      rw [hv]
      unfold listenFailure
      simp
  · unfold speakAnalysis
    simp only [h1, Bool.true_eq_false, if_false]
    by_cases hl : s.stt.isListening = true
    · simp only [hl, if_true]
      have ht : ttsSpeak (addThought (updateState (stopListening s) .speaking)
          .processing .speakingResults) text true = .error () := by
        unfold ttsSpeak
        simp [h4]
      rw [ht]
      simp
    · simp only [Bool.not_eq_true] at hl
      simp only [hl, Bool.false_eq_true, if_false]
      have ht : ttsSpeak (addThought (updateState s .speaking)
          .processing .speakingResults) text true = .error () := by
        unfold ttsSpeak
        simp [h4]
      rw [ht]
      simp

/-- Witness for the amended C1 at the concrete state `c1bad2`. -/
theorem C1_amended_error_states_witness :
    c1bad2.svc.inited = true ∧ c1bad2.svc.currentState ≠ .listening ∧
    c1bad2.vad.ready = false ∧ c1bad2.tts.ready = false ∧
    ((startListening c1bad2 0 0).svc.currentState = VState.error ∧
     (speakAnalysis c1bad2 "hi".data).svc.currentState = VState.idle) :=
  ⟨by decide, by decide, by decide, by decide,
   C1_amended_error_states c1bad2 0 0 "hi".data (by decide) (by decide)
     (by decide) (by decide)⟩




theorem splitSp_length_pos (l : List Char) : 0 < (splitSp l).length := by
  induction l with
  | nil => simp [splitSp]
  | cons c rest ih =>
    unfold splitSp
    cases hr : splitSp rest with
    | nil => rw [hr] at ih; simp at ih
    | cons w ws => cases hc : (c == ' ') <;> simp [hr, hc]

theorem mem_interimTimers (base : ℕ) (clock : ℚ) (ws : List (List Char))
    (t : Timer) (ht : t ∈ interimTimers base clock ws) :
    ∃ i, i < ws.length ∧
      t = ⟨base + i, clock + 400 + 350 * (i : ℚ),
           .sttInterim i (ws.getD i []) ws.length⟩ := by
  unfold interimTimers at ht
  rcases List.mem_map.mp ht with ⟨i, hi, rfl⟩
  exact ⟨i, List.mem_range.mp hi, rfl⟩

/-- C2 counterexample: on the concrete session `c2start` (3-word phrase
"audit the repository"), the speech engine holds 4 in-flight timers at
once, and after `stopListening()` two interim timers are still pending —
only the final timer and the most recent interim timer were cancelled. -/
theorem C2_counterexample :
    (sttPendingOf c2start).length = 4 ∧
    (sttPendingOf (sttStopListening c2start)).length = 2 :=
  ⟨by decide, by decide⟩




theorem clearTimer_pending (s : SystemState) (o : Option ℕ) :
    (clearTimer s o).pending = dropId s.pending o := by
  cases o <;> rfl

theorem sttStopListening_pending (s : SystemState) :
    (sttStopListening s).pending =
      dropId (dropId s.pending s.stt.currentTimeout) s.stt.interimTimeout := by
  unfold sttStopListening
  dsimp only
  simp only [clearTimer_pending, clearTimer_stt]

/-- C2 (amended): a `startListening()` on a `k`-word phrase puts `k + 1`
timers in flight at once (not at most one); `stopListening()` clears the
listening flag and cancels exactly the final timer and the most recently
scheduled interim timer (the only handles the slots retain), so earlier
interim timers may remain pending — but firing any remaining timer after
`stopListening()` runs no callback body (the `isListening` guard), so no
interim or final transcript event is delivered after `stopListening()`. -/
theorem C2_amended_stop_cancels (s : SystemState) (m : Fin 6) (r : ℚ)
    (s1 : SystemState)
    (h1 : s.stt.ready = true) (h2 : s.stt.isListening = false)
    (h3 : s.pending = []) (hok : sttStartListening s m r = .ok s1) :
    (sttPendingOf s1).length =
      (splitSp (MOCK_TRANSCRIPTS.get ⟨m.val, m.isLt⟩).1).length + 1 ∧
    (sttStopListening s1).stt.isListening = false ∧
    (∀ t ∈ (sttStopListening s1).pending, isFinalTimer t.kind = false) ∧
    (∀ t ∈ (sttStopListening s1).pending,
      (fireTimerId (sttStopListening s1) t.id).events =
        (sttStopListening s1).events) := by
  have hL := splitSp_length_pos (MOCK_TRANSCRIPTS.get ⟨m.val, m.isLt⟩).1
  have hLne : (splitSp (MOCK_TRANSCRIPTS.get ⟨m.val, m.isLt⟩).1).length ≠ 0 :=
    Nat.pos_iff_ne_zero.mp hL
  unfold sttStartListening at hok
  simp only [h1, h2, h3, hLne, Bool.true_eq_false, Bool.false_eq_true,
    if_false, ite_false, if_neg, List.nil_append, Except.ok.injEq] at hok
  have hpend : s1.pending =
      interimTimers s.nextId s.clock
        (splitSp (MOCK_TRANSCRIPTS.get ⟨m.val, m.isLt⟩).1) ++
      [⟨s.nextId + (splitSp (MOCK_TRANSCRIPTS.get ⟨m.val, m.isLt⟩).1).length,
        s.clock + ((MOCK_TRANSCRIPTS.get ⟨m.val, m.isLt⟩).2 : ℚ),
        .sttFinal (MOCK_TRANSCRIPTS.get ⟨m.val, m.isLt⟩).1
          (92/100 + r * (7/100))⟩] := by
    have h := congrArg SystemState.pending hok
    simpa using h.symm
  have hcur : s1.stt.currentTimeout =
      some (s.nextId + (splitSp (MOCK_TRANSCRIPTS.get ⟨m.val, m.isLt⟩).1).length) := by
    have h := congrArg (fun u => u.stt.currentTimeout) hok
    simpa using h.symm
  have hint : s1.stt.interimTimeout =
      some (s.nextId + (splitSp (MOCK_TRANSCRIPTS.get ⟨m.val, m.isLt⟩).1).length - 1) := by
    have h := congrArg (fun u => u.stt.interimTimeout) hok
    simpa using h.symm
  have hstop := sttStopListening_pending s1
  rw [hcur, hint] at hstop
  have hmem2 : ∀ t ∈ (sttStopListening s1).pending,
      t ∈ interimTimers s.nextId s.clock
        (splitSp (MOCK_TRANSCRIPTS.get ⟨m.val, m.isLt⟩).1) := by
    intro t ht
    rw [hstop] at ht
    simp only [dropId] at ht
    rcases List.mem_filter.mp ht with ⟨ht1, hp2⟩
    rcases List.mem_filter.mp ht1 with ⟨ht0, hp1⟩
    rw [hpend] at ht0
    rcases List.mem_append.mp ht0 with hmem | hmem
    · exact hmem
    · exfalso
      rw [List.mem_singleton.mp hmem] at hp1
      simp at hp1
  refine ⟨?_, sttStopListening_isListening s1, ?_, ?_⟩
  · have hall : sttPendingOf s1 = s1.pending := by
      unfold sttPendingOf
      apply List.filter_eq_self.mpr
      intro t ht
      rw [hpend] at ht
      rcases List.mem_append.mp ht with hmem | hmem
      · rcases mem_interimTimers _ _ _ _ hmem with ⟨i, _, rfl⟩; rfl
      · rw [List.mem_singleton.mp hmem]; rfl
    rw [hall, hpend, List.length_append]
    simp [interimTimers]
  · intro t ht
    rcases mem_interimTimers _ _ _ _ (hmem2 t ht) with ⟨i, _, rfl⟩
    rfl
  · intro t ht
    unfold fireTimerId
    split
    · rfl
    · rename_i u heq
      have humem : u ∈ (sttStopListening s1).pending :=
        List.mem_of_find?_eq_some heq
      rcases mem_interimTimers _ _ _ _ (hmem2 u humem) with ⟨i, _, hu⟩
      subst hu
      simp




/-- C10: every `PiperTTS.stop()` call — also when no utterance is in
progress — emits a `finished` status through the wired callback, whose
handler sets the pipeline state to `idle` and fires a state-changed event;
hence `stopSpeaking()` while nothing is being spoken still fires a
state-changed event that sets the pipeline state to `idle`. -/
theorem C10_stop_always_finishes (s : SystemState) (hw : s.tts.wired = true) :
    (ttsStop s).events = s.events ++
      [.ttsStatus .finished, .ttsSpeakingChanged false,
       .stateChange .idle s.vad.isActive] ∧
    (s.tts.isSpeaking = false →
      (stopSpeaking s).svc.currentState = VState.idle ∧
      (stopSpeaking s).events = s.events ++
        [.ttsStatus .finished, .ttsSpeakingChanged false,
         .stateChange .idle s.vad.isActive]) := by
  have hX : ({ clearTimer s s.tts.currentTimeout with
      tts.isSpeaking := false } : SystemState).tts.wired = true := by
    simp [hw]
  have hemit := ttsEmit_wired
    { clearTimer s s.tts.currentTimeout with tts.isSpeaking := false }
    .finished hX
  have hev : (ttsStop s).events = s.events ++
      [.ttsStatus .finished, .ttsSpeakingChanged false,
       .stateChange .idle s.vad.isActive] := by
    unfold ttsStop
    rw [hemit]
    simp [show (TStatus.finished == TStatus.started) = false from rfl]
  have hst : (ttsStop s).svc.currentState = VState.idle := by
    unfold ttsStop
    rw [hemit]
    simp [show (TStatus.finished == TStatus.started) = false from rfl]
  have hss : stopSpeaking s = ttsStop s := by
    unfold stopSpeaking
    dsimp only
    rw [hst]
    simp
  exact ⟨hev, fun _ => ⟨by rw [hss]; exact hst, by rw [hss]; exact hev⟩⟩

/-- Witness for C10 on the idle ready pipeline. -/
theorem C10_stop_always_finishes_witness :
    readyState.tts.wired = true ∧
    ((ttsStop readyState).events = readyState.events ++
      [.ttsStatus .finished, .ttsSpeakingChanged false,
       .stateChange .idle readyState.vad.isActive] ∧
     (readyState.tts.isSpeaking = false →
       (stopSpeaking readyState).svc.currentState = VState.idle ∧
       (stopSpeaking readyState).events = readyState.events ++
         [.ttsStatus .finished, .ttsSpeakingChanged false,
          .stateChange .idle readyState.vad.isActive])) :=
  ⟨by decide, C10_stop_always_finishes readyState (by decide)⟩




theorem fire_ttsFinish (s1 : SystemState) (id : ℕ) (q : ℚ)
    (hp : s1.pending.find? (fun u => u.id == id) =
      some ⟨id, q, .ttsFinish false⟩)
    (hw : s1.tts.wired = true) :
    (fireTimerId s1 id).clock = q ∧
    (fireTimerId s1 id).events = s1.events ++
      [.ttsStatus .finished, .ttsSpeakingChanged false,
       .stateChange .idle s1.vad.isActive] := by
  unfold fireTimerId
  rw [hp]
  dsimp only
  constructor
  · simp
  · simp [ttsEmit_wired, hw, show (TStatus.finished == TStatus.started) = false from rfl]

/-- C5: `speak(text)` emits a `started` status synchronously at call time
and schedules the `finished` status exactly at the call-time clock plus
`min(max(1000, wordCount/150·60·1000), 5000)` ms; firing that timer emits
the `finished` status at exactly that instant.  A 2-word text gets exactly
the 1000 ms floor and a 1000-word text exactly the 5000 ms cap. -/
theorem C5_speak_timing (s : SystemState) (text : List Char)
    (hr : s.tts.ready = true) (hw : s.tts.wired = true)
    (hsp : s.tts.isSpeaking = false)
    (hfresh : ∀ t ∈ s.pending, t.id < s.nextId) :
    ∃ s1, ttsSpeak s text false = .ok s1 ∧
      s1.events = s.events ++
        [.ttsStatus .started, .ttsSpeakingChanged true,
         .stateChange .speaking s.vad.isActive] ∧
      s1.pending = s.pending ++
        [⟨s.nextId, s.clock + ttsDur text, .ttsFinish false⟩] ∧
      (fireTimerId s1 s.nextId).clock = s.clock + ttsDur text ∧
      (fireTimerId s1 s.nextId).events = s1.events ++
        [.ttsStatus .finished, .ttsSpeakingChanged false,
         .stateChange .idle s.vad.isActive] ∧
      ttsDur text =
        min (max 1000 (((splitSp text).length : ℚ) / 150 * 60 * 1000)) 5000 ∧
      (∀ u : List Char, (splitSp u).length = 2 → ttsDur u = 1000) ∧
      (∀ u : List Char, (splitSp u).length = 1000 → ttsDur u = 5000) := by
  have hX : ({ s with tts.isSpeaking := true } : SystemState).tts.wired = true := by
    simp [hw]
  have hemit := ttsEmit_wired { s with tts.isSpeaking := true } .started hX
  have main : ∃ s1, ttsSpeak s text false = .ok s1 ∧
      s1.events = s.events ++
        [.ttsStatus .started, .ttsSpeakingChanged true,
         .stateChange .speaking s.vad.isActive] ∧
      s1.pending = s.pending ++
        [⟨s.nextId, s.clock + ttsDur text, .ttsFinish false⟩] ∧
      s1.tts.wired = true ∧ s1.vad = s.vad := by
    unfold ttsSpeak
    rw [if_neg (show ¬s.tts.ready = false by simp [hr])]
    dsimp only
    rw [if_neg (show ¬s.tts.isSpeaking = true by simp [hsp])]
    refine ⟨_, rfl, ?_, ?_, ?_, ?_⟩
    · rw [hemit]
      simp [show (TStatus.started == TStatus.started) = true from rfl]
    · rw [hemit]
      simp
    · simp [hw]
    · simp
  obtain ⟨s1, hok, hev, hpend, hw1, hvad⟩ := main
  have hfind : s1.pending.find? (fun u => u.id == s.nextId) =
      some ⟨s.nextId, s.clock + ttsDur text, .ttsFinish false⟩ := by
    rw [hpend, List.find?_append]
    have h1 : s.pending.find? (fun u => u.id == s.nextId) = none :=
      List.find?_eq_none.mpr (fun x hx => by
        simp only [beq_iff_eq]
        exact Nat.ne_of_lt (hfresh x hx))
    rw [h1]
    simp [List.find?]
  have hfire := fire_ttsFinish s1 s.nextId (s.clock + ttsDur text) hfind hw1
  refine ⟨s1, hok, hev, hpend, hfire.1, ?_, rfl, ?_, ?_⟩
  · rw [hfire.2, hvad]
  · intro u h
    unfold ttsDur
    rw [h]
    norm_num
  · intro u h
    unfold ttsDur
    rw [h]
    norm_num

/-- Witness for C5: `speak("hello world")` (2 words) on the ready
pipeline. -/
theorem C5_speak_timing_witness :
    readyState.tts.ready = true ∧ readyState.tts.wired = true ∧
    readyState.tts.isSpeaking = false ∧
    (∀ t ∈ readyState.pending, t.id < readyState.nextId) ∧
    (∃ s1, ttsSpeak readyState "hello world".data false = .ok s1 ∧
      s1.events = readyState.events ++
        [.ttsStatus .started, .ttsSpeakingChanged true,
         .stateChange .speaking readyState.vad.isActive] ∧
      s1.pending = readyState.pending ++
        [⟨readyState.nextId, readyState.clock + ttsDur "hello world".data,
          .ttsFinish false⟩] ∧
      (fireTimerId s1 readyState.nextId).clock =
        readyState.clock + ttsDur "hello world".data ∧
      (fireTimerId s1 readyState.nextId).events = s1.events ++
        [.ttsStatus .finished, .ttsSpeakingChanged false,
         .stateChange .idle readyState.vad.isActive] ∧
      ttsDur "hello world".data =
        min (max 1000
          (((splitSp "hello world".data).length : ℚ) / 150 * 60 * 1000)) 5000 ∧
      (∀ u : List Char, (splitSp u).length = 2 → ttsDur u = 1000) ∧
      (∀ u : List Char, (splitSp u).length = 1000 → ttsDur u = 5000)) :=
  ⟨by decide, by decide, by decide, by decide,
   C5_speak_timing readyState "hello world".data (by decide) (by decide)
     (by decide) (by decide)⟩




/-! ### Transcript-trace preservation lemmas (claim C7) -/

theorem transcriptsOf_pushEv (s : SystemState) (e : Ev) :
    transcriptsOf (pushEv s e) = transcriptsOf s ++
      (match e with
       | .transcript _ c f => [(c, f)]
       | _ => []) := by
  unfold transcriptsOf
  rw [pushEv_events, List.filterMap_append]
  congr 1
  cases e <;> rfl

theorem transcriptsOf_congr (s1 s2 : SystemState) (h : s1.events = s2.events) :
    transcriptsOf s1 = transcriptsOf s2 := by
  unfold transcriptsOf
  rw [h]

theorem transcriptsOf_updateState (s : SystemState) (st : VState) :
    transcriptsOf (updateState s st) = transcriptsOf s := by
  unfold updateState
  rw [transcriptsOf_pushEv]
  simp only [List.append_nil]
  exact transcriptsOf_congr _ _ rfl

theorem transcriptsOf_scheduleTimer (s : SystemState) (q : ℚ) (k : TimerKind) :
    transcriptsOf (scheduleTimer s q k).1 = transcriptsOf s :=
  transcriptsOf_congr _ _ (scheduleTimer_fst_events s q k)

theorem transcriptsOf_clearTimer (s : SystemState) (o : Option ℕ) :
    transcriptsOf (clearTimer s o) = transcriptsOf s :=
  transcriptsOf_congr _ _ (clearTimer_events s o)

theorem transcriptsOf_addThought (s : SystemState) (sev : Sev) (m : Msg) :
    transcriptsOf (addThought s sev m) = transcriptsOf s := by
  rw [addThought_eq, transcriptsOf_pushEv]
  simp

theorem transcriptsOf_ttsEmit (s : SystemState) (st : TStatus) :
    transcriptsOf (ttsEmit s st) = transcriptsOf s := by
  unfold ttsEmit
  split
  · rw [transcriptsOf_updateState, transcriptsOf_pushEv, transcriptsOf_pushEv]
    simp
  · rfl

theorem transcriptsOf_sttStopListening (s : SystemState) :
    transcriptsOf (sttStopListening s) = transcriptsOf s :=
  transcriptsOf_congr _ _ (sttStopListening_events s)

theorem transcriptsOf_vadStop (s : SystemState) :
    transcriptsOf (vadStop s) = transcriptsOf s := rfl

theorem transcriptsOf_stopListening (s : SystemState) :
    transcriptsOf (stopListening s) = transcriptsOf s := by
  unfold stopListening
  dsimp only
  split
  · rw [transcriptsOf_updateState, transcriptsOf_vadStop,
      transcriptsOf_sttStopListening, transcriptsOf_clearTimer]
  · rw [transcriptsOf_vadStop, transcriptsOf_sttStopListening,
      transcriptsOf_clearTimer]

/-- Once the speech engine's listening flag is down, firing any timer
appends no transcript event and leaves the flag down. -/
theorem fire_silent (s : SystemState) (id : ℕ)
    (h : s.stt.isListening = false) :
    (fireTimerId s id).stt.isListening = false ∧
    transcriptsOf (fireTimerId s id) = transcriptsOf s := by
  unfold fireTimerId
  split
  · exact ⟨h, rfl⟩
  · rename_i t heq
    obtain ⟨tid, tq, tk⟩ := t
    cases tk with
    | sttInterim i w len =>
      dsimp only
      rw [if_neg (by simp [h])]
      exact ⟨h, rfl⟩
    | sttFinal text conf =>
      dsimp only
      rw [if_neg (by simp [h])]
      exact ⟨h, rfl⟩
    | ttsFinish resume =>
      dsimp only
      cases resume with
      | false =>
        rw [if_neg (by decide : ¬(false = true))]
        refine ⟨by simp [h], ?_⟩
        rw [transcriptsOf_ttsEmit]
        exact transcriptsOf_congr _ _ rfl
      | true =>
        rw [if_pos rfl]
        constructor
        · split <;> simp [h]
        · split
          · rw [transcriptsOf_updateState, transcriptsOf_addThought,
              transcriptsOf_ttsEmit]
            exact transcriptsOf_congr _ _ rfl
          · rw [transcriptsOf_addThought, transcriptsOf_ttsEmit]
            exact transcriptsOf_congr _ _ rfl
    | svcRecording =>
      dsimp only
      split
      · refine ⟨by simp, ?_⟩
        rw [transcriptsOf_stopListening, transcriptsOf_addThought]
        exact transcriptsOf_congr _ _ rfl
      · exact ⟨h, rfl⟩
    | svcProcReturn =>
      dsimp only
      split
      · refine ⟨by simp [h], ?_⟩
        rw [transcriptsOf_updateState]
        exact transcriptsOf_congr _ _ rfl
      · exact ⟨h, rfl⟩

/-- `fire_silent`, iterated over any sequence of timer firings. -/
theorem fireMany_silent (s : SystemState) (ids : List ℕ)
    (h : s.stt.isListening = false) :
    (fireMany s ids).stt.isListening = false ∧
    transcriptsOf (fireMany s ids) = transcriptsOf s := by
  induction ids generalizing s with
  | nil => exact ⟨h, rfl⟩
  | cons id rest ih =>
    rcases fire_silent s id h with ⟨h1, h2⟩
    rcases ih (fireTimerId s id) h1 with ⟨h3, h4⟩
    unfold fireMany at *
    rw [List.foldl_cons]
    exact ⟨h3, by rw [h4, h2]⟩




/-- Witness for the amended C2 at the concrete session `c2start`. -/
theorem C2_amended_stop_cancels_witness :
    readyState.stt.ready = true ∧ readyState.stt.isListening = false ∧
    readyState.pending = [] ∧
    ((sttPendingOf c2start).length =
      (splitSp (MOCK_TRANSCRIPTS.get ⟨(0 : Fin 6).val, (0 : Fin 6).isLt⟩).1).length + 1 ∧
     (sttStopListening c2start).stt.isListening = false ∧
     (∀ t ∈ (sttStopListening c2start).pending, isFinalTimer t.kind = false) ∧
     (∀ t ∈ (sttStopListening c2start).pending,
       (fireTimerId (sttStopListening c2start) t.id).events =
         (sttStopListening c2start).events)) :=
  ⟨by decide, by decide, by decide,
   C2_amended_stop_cancels readyState 0 0 c2start (by decide) (by decide)
     (by decide) rfl⟩

set_option maxHeartbeats 1000000 in
/-- C7: calling `speakAnalysis` while the pipeline is `listening` (so the
speech engine is listening) first stops listening — the listening flag goes
down, the final-transcript timer is cancelled, and firing any timers that
remain pending afterwards emits no transcript event — and only then
transitions through `idle` to `speaking` and starts synthesis (`started`
status), ending the call in state `speaking`. -/
theorem C7_speak_preempts_listening (m : Fin 6) (r : ℚ) (text : List Char) :
    (speakAnalysis (startListening readyState m r) text).stt.isListening = false ∧
    (speakAnalysis (startListening readyState m r) text).svc.currentState =
      VState.speaking ∧
    (speakAnalysis (startListening readyState m r) text).events =
      (startListening readyState m r).events ++
      [.stateChange .idle false, .stateChange .speaking false,
       .thought .processing .speakingResults, .ttsStatus .started,
       .ttsSpeakingChanged true, .stateChange .speaking false] ∧
    (speakAnalysis (startListening readyState m r) text).pending.filter
      (fun t => isFinalTimer t.kind) = [] ∧
    (∀ ids : List ℕ,
      transcriptsOf
          (fireMany (speakAnalysis (startListening readyState m r) text) ids) =
        transcriptsOf (speakAnalysis (startListening readyState m r) text)) := by
  fin_cases m <;>
    exact ⟨rfl, rfl, rfl, rfl, fun ids => (fireMany_silent _ ids rfl).2⟩

/-- C8: after `start()`, the detector's 500 ms interval fires the
speech-detected event exactly once — already on the first tick — and in any
number `n ≥ 1` of ticks appends exactly the single event `vadEvent true`,
never a silence (`vadEvent false`) event. -/
theorem C8_vad_fires_once (s : SystemState) (n : ℕ) (s0 : SystemState)
    (hready : s.vad.ready = true) (hw : s.vad.wired = true) (hn : 1 ≤ n)
    (hok : vadStart s = .ok s0) :
    (vadTick^[n] s0).events = s.events ++ [.vadEvent true] ∧
    (vadTick s0).events = s.events ++ [.vadEvent true] := by
  unfold vadStart at hok
  rw [if_neg (by simp [hready])] at hok
  injection hok with hs0
  subst hs0
  have h1 : vadTick { s with vad.isActive := true,
                             vad.speechDetected := false,
                             vad.intervalArmed := true } =
      pushEv { s with vad.isActive := true,
                      vad.speechDetected := true,
                      vad.intervalArmed := true } (.vadEvent true) := by
    unfold vadTick vadEmit
    simp [hw]
  have h2 : vadTick (pushEv { s with vad.isActive := true,
                                     vad.speechDetected := true,
                                     vad.intervalArmed := true }
        (.vadEvent true)) =
      pushEv { s with vad.isActive := true,
                      vad.speechDetected := true,
                      vad.intervalArmed := true } (.vadEvent true) := by
    unfold vadTick
    simp
  constructor
  · obtain ⟨k, hk⟩ : ∃ k, n = k + 1 := ⟨n - 1, (Nat.succ_pred_eq_of_pos hn).symm⟩
    rw [hk, Function.iterate_succ_apply, h1, Function.iterate_fixed h2 k]
    simp
  · rw [h1]
    simp

/-- Witness for C8: one tick after `start()` on the ready pipeline. -/
theorem C8_vad_fires_once_witness :
    readyState.vad.ready = true ∧ readyState.vad.wired = true ∧ 1 ≤ 1 ∧
    ((vadTick^[1] c8started).events = readyState.events ++ [.vadEvent true] ∧
     (vadTick c8started).events = readyState.events ++ [.vadEvent true]) :=
  ⟨by decide, by decide, le_refl 1,
   C8_vad_fires_once readyState 1 c8started (by decide) (by decide)
     (le_refl 1) rfl⟩




set_option maxRecDepth 10000 in
set_option maxHeartbeats 40000000 in
/-- C9: within one listening session (any mock phrase `m`, any final
random draw `r ≥ 0`), the transcript stream consists of the interim events
(isFinal = false), one per word, followed by exactly one final event
(isFinal = true); the confidences, in emission order, are pairwise
non-decreasing, so the interim confidences are non-decreasing and the final
confidence `0.92 + 0.07·r` is at least every interim confidence.  The
speech timers' fire times are strictly increasing in queue order, so queue
order is emission order. -/
theorem C9_confidence_monotone (m : Fin 6) (r : ℚ) (hr : 0 ≤ r) :
    ∃ cs : List ℚ,
      transcriptsOf (sessionRun m r) =
        cs.map (fun c => (c, false)) ++ [(92/100 + r * (7/100), true)] ∧
      List.Pairwise (· ≤ ·) (cs ++ [92/100 + r * (7/100)]) ∧
      cs.length = (splitSp (MOCK_TRANSCRIPTS.get ⟨m.val, m.isLt⟩).1).length ∧
      List.Chain' (· < ·)
        ((sttPendingOf (startListening readyState m r)).map (fun t => t.fireAt)) := by
  fin_cases m
  · refine ⟨[1/2 + ((0:ℕ):ℚ)/((3:ℕ):ℚ) * (3/10), 1/2 + ((1:ℕ):ℚ)/((3:ℕ):ℚ) * (3/10),
      1/2 + ((2:ℕ):ℚ)/((3:ℕ):ℚ) * (3/10)], rfl, ?_, rfl, ?_⟩
    · norm_num [List.pairwise_append, List.pairwise_cons, List.mem_singleton]
      repeat' apply And.intro
      all_goals linarith
    · rw [show (sttPendingOf (startListening readyState ⟨0, by norm_num⟩ r)).map
          (fun t => t.fireAt) =
          [(0:ℚ) + 400 + 350 * ((0:ℕ):ℚ), (0:ℚ) + 400 + 350 * ((1:ℕ):ℚ),
           (0:ℚ) + 400 + 350 * ((2:ℕ):ℚ), (0:ℚ) + ((2000:ℕ):ℚ)] from rfl]
      norm_num [List.chain'_cons]
  · refine ⟨[1/2 + ((0:ℕ):ℚ)/((3:ℕ):ℚ) * (3/10), 1/2 + ((1:ℕ):ℚ)/((3:ℕ):ℚ) * (3/10),
      1/2 + ((2:ℕ):ℚ)/((3:ℕ):ℚ) * (3/10)], rfl, ?_, rfl, ?_⟩
    · norm_num [List.pairwise_append, List.pairwise_cons, List.mem_singleton]
      repeat' apply And.intro
      all_goals linarith
    · rw [show (sttPendingOf (startListening readyState ⟨1, by norm_num⟩ r)).map
          (fun t => t.fireAt) =
          [(0:ℚ) + 400 + 350 * ((0:ℕ):ℚ), (0:ℚ) + 400 + 350 * ((1:ℕ):ℚ),
           (0:ℚ) + 400 + 350 * ((2:ℕ):ℚ), (0:ℚ) + ((2500:ℕ):ℚ)] from rfl]
      norm_num [List.chain'_cons]
  · refine ⟨[1/2 + ((0:ℕ):ℚ)/((4:ℕ):ℚ) * (3/10), 1/2 + ((1:ℕ):ℚ)/((4:ℕ):ℚ) * (3/10),
      1/2 + ((2:ℕ):ℚ)/((4:ℕ):ℚ) * (3/10), 1/2 + ((3:ℕ):ℚ)/((4:ℕ):ℚ) * (3/10)],
      rfl, ?_, rfl, ?_⟩
    · norm_num [List.pairwise_append, List.pairwise_cons, List.mem_singleton]
      repeat' apply And.intro
      all_goals linarith
    · rw [show (sttPendingOf (startListening readyState ⟨2, by norm_num⟩ r)).map
          (fun t => t.fireAt) =
          [(0:ℚ) + 400 + 350 * ((0:ℕ):ℚ), (0:ℚ) + 400 + 350 * ((1:ℕ):ℚ),
           (0:ℚ) + 400 + 350 * ((2:ℕ):ℚ), (0:ℚ) + 400 + 350 * ((3:ℕ):ℚ),
           (0:ℚ) + ((3000:ℕ):ℚ)] from rfl]
      norm_num [List.chain'_cons]
  · refine ⟨[1/2 + ((0:ℕ):ℚ)/((3:ℕ):ℚ) * (3/10), 1/2 + ((1:ℕ):ℚ)/((3:ℕ):ℚ) * (3/10),
      1/2 + ((2:ℕ):ℚ)/((3:ℕ):ℚ) * (3/10)], rfl, ?_, rfl, ?_⟩
    · norm_num [List.pairwise_append, List.pairwise_cons, List.mem_singleton]
      repeat' apply And.intro
      all_goals linarith
    · rw [show (sttPendingOf (startListening readyState ⟨3, by norm_num⟩ r)).map
          (fun t => t.fireAt) =
          [(0:ℚ) + 400 + 350 * ((0:ℕ):ℚ), (0:ℚ) + 400 + 350 * ((1:ℕ):ℚ),
           (0:ℚ) + 400 + 350 * ((2:ℕ):ℚ), (0:ℚ) + ((2200:ℕ):ℚ)] from rfl]
      norm_num [List.chain'_cons]
  · refine ⟨[1/2 + ((0:ℕ):ℚ)/((4:ℕ):ℚ) * (3/10), 1/2 + ((1:ℕ):ℚ)/((4:ℕ):ℚ) * (3/10),
      1/2 + ((2:ℕ):ℚ)/((4:ℕ):ℚ) * (3/10), 1/2 + ((3:ℕ):ℚ)/((4:ℕ):ℚ) * (3/10)],
      rfl, ?_, rfl, ?_⟩
    · norm_num [List.pairwise_append, List.pairwise_cons, List.mem_singleton]
      repeat' apply And.intro
      all_goals linarith
    · rw [show (sttPendingOf (startListening readyState ⟨4, by norm_num⟩ r)).map
          (fun t => t.fireAt) =
          [(0:ℚ) + 400 + 350 * ((0:ℕ):ℚ), (0:ℚ) + 400 + 350 * ((1:ℕ):ℚ),
           (0:ℚ) + 400 + 350 * ((2:ℕ):ℚ), (0:ℚ) + 400 + 350 * ((3:ℕ):ℚ),
           (0:ℚ) + ((1800:ℕ):ℚ)] from rfl]
      norm_num [List.chain'_cons]
  · refine ⟨[1/2 + ((0:ℕ):ℚ)/((2:ℕ):ℚ) * (3/10), 1/2 + ((1:ℕ):ℚ)/((2:ℕ):ℚ) * (3/10)],
      rfl, ?_, rfl, ?_⟩
    · norm_num [List.pairwise_append, List.pairwise_cons, List.mem_singleton]
      repeat' apply And.intro
      all_goals linarith
    · rw [show (sttPendingOf (startListening readyState ⟨5, by norm_num⟩ r)).map
          (fun t => t.fireAt) =
          [(0:ℚ) + 400 + 350 * ((0:ℕ):ℚ), (0:ℚ) + 400 + 350 * ((1:ℕ):ℚ),
           (0:ℚ) + ((1500:ℕ):ℚ)] from rfl]
      norm_num [List.chain'_cons]




/-- Witness for C9 at mock phrase 0 and random draw 0. -/
theorem C9_confidence_monotone_witness :
    0 ≤ (0 : ℚ) ∧
    (∃ cs : List ℚ,
      transcriptsOf (sessionRun 0 0) =
        cs.map (fun c => (c, false)) ++ [(92/100 + (0:ℚ) * (7/100), true)] ∧
      List.Pairwise (· ≤ ·) (cs ++ [92/100 + (0:ℚ) * (7/100)]) ∧
      cs.length =
        (splitSp (MOCK_TRANSCRIPTS.get ⟨(0 : Fin 6).val, (0 : Fin 6).isLt⟩).1).length ∧
      List.Chain' (· < ·)
        ((sttPendingOf (startListening readyState 0 0)).map (fun t => t.fireAt))) :=
  ⟨by decide, C9_confidence_monotone 0 0 (by decide)⟩


end VoiceCore
